import Mathlib

/-!
# Verification of the Nexus_Groups ledger core (src/app.py)

Shallow embedding of the ledger-relevant parts of `src/app.py`: the `users`
and `transactions` tables, the `register`, `transfer`, `admin` (credit) and
`dashboard` (history) routes, and the `send_email` notification helper.

Modelling conventions:
* SQLite rows become Lean structures; the two tables become lists held in a
  `LedgerState`, together with the AUTOINCREMENT counters.
* Python `float` monetary amounts are modelled as exact rationals `ℚ`.
* `CURRENT_TIMESTAMP` is modelled by a monotone commit counter: commits are
  serialized, each committed record receives the next tick as its `date`.
* Each route returns the committed database state paired with the outcome:
  `none` for a success (a "success" flash + redirect in the source) and
  `some e` for the flash/redirect or uncaught-exception path it aborts on.
  SQLite discards uncommitted statements when the connection closes without
  `commit()`, so an aborting route leaves the stored state untouched.
* `werkzeug.generate_password_hash` is an external collaborator; no claim
  inspects stored passwords, so it is modelled as the identity encoding.
* SMTP delivery in `send_email` is external; it is modelled by an
  `EmailEnv` oracle saying whether credentials are present and whether the
  SMTP exchange succeeds.  `send_email` itself never raises: it returns
  `false` on missing credentials or on any delivery exception.
-/

namespace Nexus

/-- A row of the `users` table: id AUTOINCREMENT, username UNIQUE, email
UNIQUE (nullable), password hash, balance REAL DEFAULT 0. -/
structure Account where
  id : Nat
  username : String
  email : Option String
  password : String
  balance : ℚ
  deriving Repr, DecidableEq

/-- A row of the `transactions` table: id AUTOINCREMENT, nullable sender_id,
receiver_id, amount, description, date TIMESTAMP DEFAULT CURRENT_TIMESTAMP. -/
structure TransactionRecord where
  id : Nat
  sender_id : Option Nat
  receiver_id : Nat
  amount : ℚ
  description : String
  date : Nat
  deriving Repr, DecidableEq

/-- The Flask session data the routes read: `session['user_id']` and
`session['username']`, both set at login from the user row. -/
structure Session where
  user_id : Nat
  username : String
  deriving Repr, DecidableEq

/-- The whole stored database plus the AUTOINCREMENT counters.  `nextTxId`
doubles as the commit clock assigning `date` stamps. -/
structure LedgerState where
  users : List Account
  transactions : List TransactionRecord
  nextUserId : Nat
  nextTxId : Nat
  deriving Repr, DecidableEq

/-- The abort outcomes of the routes.  The first six correspond to a flash
message plus redirect in the source; `typeError` is the uncaught Python
`TypeError` raised by subscripting a `fetchone()` result that is `None`. -/
inductive LedgerError where
  | emptyField
  | integrityError
  | notLoggedIn
  | notAdmin
  | invalidAmount
  | accountNotFound
  | insufficientFunds
  | typeError
  deriving Repr, DecidableEq

/-- `SELECT * FROM users WHERE id = ?` followed by `fetchone()`. -/
def findById (s : LedgerState) (uid : Nat) : Option Account :=
  s.users.find? (fun a => a.id == uid)

/-- `SELECT * FROM users WHERE username = ?` followed by `fetchone()`. -/
def findByUsername (s : LedgerState) (uname : String) : Option Account :=
  s.users.find? (fun a => a.username == uname)

/-- `UPDATE users SET balance = balance + ? WHERE id = ?` (a debit passes a
negative delta). -/
def updateBalance (l : List Account) (uid : Nat) (delta : ℚ) : List Account :=
  l.map fun a => if a.id == uid then { a with balance := a.balance + delta } else a

/-- External collaborator: `werkzeug.generate_password_hash`.  No claim
inspects stored password hashes, so the hash is modelled as the identity. -/
def generate_password_hash (p : String) : String := p

/-- The `/register` POST handler (lines 118-141): empty username or password
flashes and aborts; a UNIQUE violation on username or a present email is the
caught `sqlite3.IntegrityError`; otherwise one row is inserted with the
schema default `balance = 0`. -/
def register (username : String) (email : Option String) (password : String)
    (s : LedgerState) : LedgerState × Option LedgerError :=
  if username = "" || password = "" then
    (s, some .emptyField)
  else if s.users.any (fun a => a.username == username)
      || (email.isSome && s.users.any (fun a => a.email == email)) then
    (s, some .integrityError)
  else
    let newAcct : Account :=
      { id := s.nextUserId, username := username, email := email,
        password := generate_password_hash password, balance := 0 }
    ({ s with
        users := s.users ++ [newAcct],
        nextUserId := s.nextUserId + 1 }, none)

/-- The `/transfer` POST handler (lines 213-245).  Control flow in source
order: session check; `amount <= 0` check; receiver looked up by username and
sender by session id; `if not receiver` aborts; `sender['balance']` on a
`None` sender row raises `TypeError`; insufficient funds aborts; otherwise
debit, credit and one inserted transaction row are committed together. -/
def transfer (sess : Option Session) (receiverUsername : String) (amount : ℚ)
    (description : String) (s : LedgerState) : LedgerState × Option LedgerError :=
  match sess with
  | none => (s, some .notLoggedIn)
  | some sn =>
    if amount ≤ 0 then
      (s, some .invalidAmount)
    else
      match findByUsername s receiverUsername with
      | none => (s, some .accountNotFound)
      | some receiver =>
        match findById s sn.user_id with
        | none => (s, some .typeError)
        | some sender =>
          if sender.balance < amount then
            (s, some .insufficientFunds)
          else
            let tx : TransactionRecord :=
              { id := s.nextTxId, sender_id := some sn.user_id,
                receiver_id := receiver.id, amount := amount,
                description := description, date := s.nextTxId }
            ({ s with
                users := updateBalance (updateBalance s.users sn.user_id (-amount))
                  receiver.id amount,
                transactions := s.transactions ++ [tx],
                nextTxId := s.nextTxId + 1 }, none)

/-- The `/admin` POST handler (lines 183-209): requires a session whose
username is literally `"admin"`; rejects `amount <= 0`; then runs the UPDATE
(matching no row when the id does not exist) and the INSERT with `sender_id`
NULL and the hard-coded description `"Crédit admin"`, and commits both. -/
def admin (sess : Option Session) (userId : Nat) (amount : ℚ)
    (s : LedgerState) : LedgerState × Option LedgerError :=
  match sess with
  | none => (s, some .notLoggedIn)
  | some sn =>
    if sn.username ≠ "admin" then
      (s, some .notAdmin)
    else if amount ≤ 0 then
      (s, some .invalidAmount)
    else
      let tx : TransactionRecord :=
        { id := s.nextTxId, sender_id := none, receiver_id := userId,
          amount := amount, description := "Crédit admin", date := s.nextTxId }
      ({ s with
          users := updateBalance s.users userId amount,
          transactions := s.transactions ++ [tx],
          nextTxId := s.nextTxId + 1 }, none)

/-- Newest-first comparison on transaction rows, the `ORDER BY date DESC` of
the dashboard query. -/
def newestFirst (a b : TransactionRecord) : Prop := b.date ≤ a.date

instance : DecidableRel newestFirst := fun a b => Nat.decLe b.date a.date

instance : IsTotal TransactionRecord newestFirst :=
  ⟨fun a b => Nat.le_total b.date a.date⟩

instance : IsTrans TransactionRecord newestFirst :=
  ⟨fun _ _ _ hab hbc => Nat.le_trans hbc hab⟩

/-- `SELECT * FROM transactions WHERE sender_id = ? OR receiver_id = ?
ORDER BY date DESC` (lines 170-172). -/
def listForAccount (s : LedgerState) (uid : Nat) : List TransactionRecord :=
  List.insertionSort newestFirst
    (s.transactions.filter fun t => t.sender_id == some uid || t.receiver_id == uid)

/-- What the dashboard template receives: the balance shown and the history. -/
structure DashboardView where
  user_balance : ℚ
  transactions : List TransactionRecord
  deriving Repr, DecidableEq

/-- The `/dashboard` handler (lines 163-175): redirects to login without a
session; otherwise renders `user['balance'] if user else 0.0` and the
newest-first transaction query for the session id.  It never mutates. -/
def dashboard (sess : Option Session) (s : LedgerState) :
    Except LedgerError DashboardView :=
  match sess with
  | none => .error .notLoggedIn
  | some sn =>
    .ok { user_balance := ((findById s sn.user_id).map Account.balance).getD 0,
          transactions := listForAccount s sn.user_id }

/-- Environment of the `send_email` helper: whether `EMAIL_USER`/`EMAIL_PASS`
are configured and whether the SMTP exchange would succeed. -/
structure EmailEnv where
  hasCreds : Bool
  smtpOk : Bool
  deriving Repr, DecidableEq

/-- An email the helper is asked to deliver. -/
structure EmailMsg where
  subject : String
  body : String
  to_email : String
  deriving Repr, DecidableEq

/-- `send_email` (lines 84-100): skips (returns `False`) when credentials are
missing; catches every delivery exception and returns `False`; returns `True`
on successful delivery.  It never raises and never touches the database. -/
def send_email (env : EmailEnv) (_subject _body _to : String) : Bool :=
  if !env.hasCreds then false
  else if env.smtpOk then true
  else false

/-- The `/transfer` route including its post-commit notification: the email
is sent only after `conn.commit()`, built from the pre-transfer sender and
receiver rows.  The third component lists the attempted notifications with
the delivery outcome. -/
def transferRoute (env : EmailEnv) (sess : Option Session)
    (receiverUsername : String) (amount : ℚ) (description : String)
    (s : LedgerState) :
    LedgerState × Option LedgerError × List (EmailMsg × Bool) :=
  match transfer sess receiverUsername amount description s with
  | (s2, none) =>
    let senderName := ((sess.bind fun sn => findById s sn.user_id).map
      Account.username).getD ""
    let msg : EmailMsg :=
      { subject := "Transaction interne",
        body := senderName ++ " a transféré " ++ toString amount ++ "€ à "
          ++ receiverUsername,
        to_email := "pretalicialopez@gmail.com" }
    (s2, none, [(msg, send_email env msg.subject msg.body msg.to_email)])
  | (s2, some e) => (s2, some e, [])

/-- The `/admin` route including its post-commit notification. -/
def adminRoute (env : EmailEnv) (sess : Option Session) (userId : Nat)
    (amount : ℚ) (s : LedgerState) :
    LedgerState × Option LedgerError × List (EmailMsg × Bool) :=
  match admin sess userId amount s with
  | (s2, none) =>
    let msg : EmailMsg :=
      { subject := "Compte crédité: " ++ toString amount ++ "€",
        body := "Utilisateur id " ++ toString userId ++ " a été crédité de "
          ++ toString amount ++ "€",
        to_email := "pretalicialopez@gmail.com" }
    (s2, none, [(msg, send_email env msg.subject msg.body msg.to_email)])
  | (s2, some e) => (s2, some e, [])

/-- The state-mutating requests a client can issue against the app. -/
inductive Op where
  | registerOp (username : String) (email : Option String) (password : String)
  | transferOp (sess : Option Session) (receiverUsername : String)
      (amount : ℚ) (description : String)
  | adminOp (sess : Option Session) (userId : Nat) (amount : ℚ)
  deriving Repr, DecidableEq

/-- Is the request a `/transfer` POST? -/
def Op.isTransfer : Op → Bool
  | .transferOp _ _ _ _ => true
  | _ => false

/-- The committed database state after serving one request. -/
def runOp (s : LedgerState) (op : Op) : LedgerState :=
  match op with
  | .registerOp u e p => (register u e p s).1
  | .transferOp sess ru amt d => (transfer sess ru amt d s).1
  | .adminOp sess uid amt => (admin sess uid amt s).1

/-- The freshly created database: empty tables, AUTOINCREMENT counters at 1. -/
def emptyState : LedgerState :=
  { users := [], transactions := [], nextUserId := 1, nextTxId := 1 }

/-- `ensure_admin` (lines 58-67): inserts the `admin` user with balance 0.0
when no row with that username exists. -/
def ensure_admin (s : LedgerState) : LedgerState :=
  if s.users.any (fun a => a.username == "admin") then s
  else
    let adminAcct : Account :=
      { id := s.nextUserId, username := "admin",
        email := some "admin@example.com",
        password := generate_password_hash "admin123", balance := 0 }
    { s with
        users := s.users ++ [adminAcct],
        nextUserId := s.nextUserId + 1 }

/-- The state after module import: `init_db()` then `ensure_admin()`. -/
def initState : LedgerState := ensure_admin emptyState

/-- A database state the running app can actually be in: reached from the
fresh database by some sequence of requests. -/
def Reachable (s : LedgerState) : Prop :=
  ∃ ops : List Op, s = ops.foldl runOp initState

/-- Sum of all stored balances. -/
def totalBalance (s : LedgerState) : ℚ :=
  (s.users.map Account.balance).sum

/-- Well-formedness the app maintains: balances are non-negative, the
AUTOINCREMENT primary keys are distinct and below the counter. -/
def goodState (s : LedgerState) : Prop :=
  (∀ a ∈ s.users, 0 ≤ a.balance) ∧
  (s.users.map Account.id).Nodup ∧
  (∀ a ∈ s.users, a.id < s.nextUserId)

/-! ## Helper lemmas about the row operations -/

theorem findById_mem {s : LedgerState} {uid : Nat} {a : Account}
    (h : findById s uid = some a) : a ∈ s.users ∧ a.id = uid := by
  unfold findById at h
  refine ⟨List.mem_of_find?_eq_some h, ?_⟩
  have hp := List.find?_some h
  simpa using hp

theorem findByUsername_mem {s : LedgerState} {uname : String} {a : Account}
    (h : findByUsername s uname = some a) : a ∈ s.users ∧ a.username = uname := by
  unfold findByUsername at h
  refine ⟨List.mem_of_find?_eq_some h, ?_⟩
  have hp := List.find?_some h
  simpa using hp

theorem updateBalance_map_id (l : List Account) (uid : Nat) (d : ℚ) :
    (updateBalance l uid d).map Account.id = l.map Account.id := by
  unfold updateBalance
  rw [List.map_map]
  apply List.map_congr_left
  intro a _
  by_cases h : a.id = uid <;> simp [h, Function.comp]

theorem updateBalance_of_not_mem {l : List Account} {uid : Nat} (d : ℚ)
    (h : uid ∉ l.map Account.id) : updateBalance l uid d = l := by
  unfold updateBalance
  conv_rhs => rw [← List.map_id l]
  apply List.map_congr_left
  intro a ha
  have hne : a.id ≠ uid := fun he => h (he ▸ List.mem_map_of_mem Account.id ha)
  simp [hne]

theorem sum_updateBalance (uid : Nat) (d : ℚ) :
    ∀ l : List Account, (l.map Account.id).Nodup → uid ∈ l.map Account.id →
      ((updateBalance l uid d).map Account.balance).sum
        = (l.map Account.balance).sum + d := by
  intro l
  induction l with
  | nil => intro _ hm; simp at hm
  | cons b t ih =>
    intro hnd hm
    rw [List.map_cons, List.nodup_cons] at hnd
    by_cases hb : b.id = uid
    · have htail : updateBalance t uid d = t :=
        updateBalance_of_not_mem d (hb ▸ hnd.1)
      simp only [updateBalance, List.map_cons, hb, beq_self_eq_true, if_true]
      rw [show (List.map (fun a =>
          if a.id == uid then { a with balance := a.balance + d } else a) t)
        = updateBalance t uid d from rfl, htail]
      simp only [List.map_cons, List.sum_cons]
      ring
    · have hm2 : uid ∈ t.map Account.id := by
        rcases List.mem_cons.mp hm with h | h
        · exact absurd h.symm hb
        · exact h
      have hne : (b.id == uid) = false := by
        simp [hb]
      simp only [updateBalance, List.map_cons, hne, if_false, Bool.false_eq_true]
      rw [show (List.map (fun a =>
          if a.id == uid then { a with balance := a.balance + d } else a) t)
        = updateBalance t uid d from rfl]
      simp only [List.map_cons, List.sum_cons, ih hnd.2 hm2]
      ring

theorem id_lt_of_mem_updateBalance {l : List Account} {uid : Nat} {d : ℚ}
    {a : Account} {n : Nat} (h : a ∈ updateBalance l uid d)
    (hb : ∀ b ∈ l, b.id < n) : a.id < n := by
  have hm : a.id ∈ (updateBalance l uid d).map Account.id :=
    List.mem_map_of_mem Account.id h
  rw [updateBalance_map_id] at hm
  obtain ⟨b, hbl, hid⟩ := List.mem_map.mp hm
  exact hid ▸ hb b hbl

/-- Every row of an updated table comes from a row of the old table: the
matching row gets the delta, every other row is untouched. -/
theorem mem_updateBalance_cases {l : List Account} {uid : Nat} {d : ℚ}
    {a : Account} (h : a ∈ updateBalance l uid d) :
    ∃ b ∈ l, b.id = a.id ∧
      ((a.id = uid ∧ a.balance = b.balance + d) ∨
       (a.id ≠ uid ∧ a.balance = b.balance)) := by
  simp only [updateBalance, List.mem_map] at h
  obtain ⟨b, hbl, rfl⟩ := h
  by_cases hb : b.id = uid
  · exact ⟨b, hbl, by simp [hb], Or.inl ⟨by simp [hb], by simp [hb]⟩⟩
  · exact ⟨b, hbl, by simp [hb], Or.inr ⟨by simp [hb], by simp [hb]⟩⟩

/-! ## Preservation of well-formedness -/

theorem goodState_register (u : String) (e : Option String) (p : String)
    (s : LedgerState) (hg : goodState s) :
    goodState (register u e p s).1 := by
  obtain ⟨hnn, hnd, hlt⟩ := hg
  unfold register
  by_cases h1 : u = "" || p = ""
  · simp [h1]; exact ⟨hnn, hnd, hlt⟩
  · by_cases h2 : s.users.any (fun a => a.username == u)
        || (e.isSome && s.users.any (fun a => a.email == e))
    · simp [h1, h2]; exact ⟨hnn, hnd, hlt⟩
    · simp only [h1, h2, Bool.false_eq_true, if_false]
      refine ⟨?_, ?_, ?_⟩
      · intro a ha
        rcases List.mem_append.mp ha with h | h
        · exact hnn a h
        · simp at h
          subst h
          exact le_refl 0
      · rw [List.map_append]
        refine List.Nodup.append hnd (by simp) ?_
        intro x hx hx2
        simp at hx2
        obtain ⟨b, hbl, hid⟩ := List.mem_map.mp hx
        subst hx2
        exact absurd hid (Nat.ne_of_lt (hlt b hbl))
      · intro a ha
        rcases List.mem_append.mp ha with h | h
        · exact Nat.lt_succ_of_lt (hlt a h)
        · simp at h
          subst h
          exact Nat.lt_succ_self _

theorem goodState_admin (sess : Option Session) (uid : Nat) (amt : ℚ)
    (s : LedgerState) (hg : goodState s) :
    goodState (admin sess uid amt s).1 := by
  obtain ⟨hnn, hnd, hlt⟩ := hg
  cases sess with
  | none => exact ⟨hnn, hnd, hlt⟩
  | some sn =>
    unfold admin
    by_cases h1 : sn.username = "admin"
    · by_cases h2 : amt ≤ 0
      · simp [h1, h2]; exact ⟨hnn, hnd, hlt⟩
      · simp [h1, h2]
        refine ⟨?_, ?_, ?_⟩
        · intro a ha
          obtain ⟨b, hbl, _, hcase⟩ := mem_updateBalance_cases ha
          have h0 := hnn b hbl
          have hamt : 0 < amt := lt_of_not_le h2
          rcases hcase with ⟨_, hb⟩ | ⟨_, hb⟩ <;> rw [hb] <;> linarith
        · rw [updateBalance_map_id]
          exact hnd
        · intro a ha
          exact id_lt_of_mem_updateBalance ha hlt
    · simp [h1]; exact ⟨hnn, hnd, hlt⟩

theorem goodState_transfer (sess : Option Session) (ru : String) (amt : ℚ)
    (d : String) (s : LedgerState) (hg : goodState s) :
    goodState (transfer sess ru amt d s).1 := by
  obtain ⟨hnn, hnd, hlt⟩ := hg
  cases sess with
  | none => exact ⟨hnn, hnd, hlt⟩
  | some sn =>
    unfold transfer
    by_cases h1 : amt ≤ 0
    · simp [h1]; exact ⟨hnn, hnd, hlt⟩
    · cases hr : findByUsername s ru with
      | none => simp [h1, hr]; exact ⟨hnn, hnd, hlt⟩
      | some receiver =>
        cases hs : findById s sn.user_id with
        | none => simp [h1, hr, hs]; exact ⟨hnn, hnd, hlt⟩
        | some sender =>
          by_cases h2 : sender.balance < amt
          · simp [h1, hr, hs, h2]; exact ⟨hnn, hnd, hlt⟩
          · simp [h1, hr, hs, h2]
            refine ⟨?_, ?_, ?_⟩
            · intro a ha
              have hamt : 0 < amt := lt_of_not_le h1
              have hle : amt ≤ sender.balance := le_of_not_lt h2
              have hsm := findById_mem hs
              obtain ⟨b1, hb1, hid1, hcase1⟩ := mem_updateBalance_cases ha
              obtain ⟨b0, hb0, hid0, hcase0⟩ := mem_updateBalance_cases hb1
              have h00 := hnn b0 hb0
              rcases hcase1 with ⟨_, he1⟩ | ⟨_, he1⟩ <;>
                rcases hcase0 with ⟨hi0, he0⟩ | ⟨_, he0⟩
              · rw [he1, he0]; linarith
              · rw [he1, he0]; linarith
              · have hbs : b0 = sender :=
                  List.inj_on_of_nodup_map hnd hb0 hsm.1
                    (by rw [hid0, hi0, hsm.2])
                rw [he1, he0, hbs]
                linarith
              · rw [he1, he0]; exact h00
            · rw [updateBalance_map_id, updateBalance_map_id]
              exact hnd
            · intro a ha
              refine id_lt_of_mem_updateBalance ha ?_
              intro b hbl
              exact id_lt_of_mem_updateBalance hbl hlt

theorem goodState_runOp (s : LedgerState) (op : Op) (hg : goodState s) :
    goodState (runOp s op) := by
  cases op with
  | registerOp u e p => exact goodState_register u e p s hg
  | transferOp sess ru amt d => exact goodState_transfer sess ru amt d s hg
  | adminOp sess uid amt => exact goodState_admin sess uid amt s hg

theorem goodState_foldl : ∀ (ops : List Op) (s : LedgerState), goodState s →
    goodState (ops.foldl runOp s) := by
  intro ops
  induction ops with
  | nil => intro s hg; exact hg
  | cons op t ih =>
    intro s hg
    rw [List.foldl_cons]
    exact ih (runOp s op) (goodState_runOp s op hg)

theorem goodState_initState : goodState initState := by
  constructor
  · intro a ha
    simp [initState, ensure_admin, emptyState] at ha
    subst ha
    exact le_refl 0
  · constructor
    · simp [initState, ensure_admin, emptyState]
    · intro a ha
      simp [initState, ensure_admin, emptyState] at ha ⊢
      subst ha
      simp

theorem reachable_goodState {s : LedgerState} (h : Reachable s) : goodState s := by
  obtain ⟨ops, rfl⟩ := h
  exact goodState_foldl ops initState goodState_initState

/-! ## Conservation of the total balance under transfers -/

theorem totalBalance_transfer (sess : Option Session) (ru : String) (amt : ℚ)
    (d : String) (s : LedgerState) (hnd : (s.users.map Account.id).Nodup) :
    totalBalance (transfer sess ru amt d s).1 = totalBalance s := by
  cases sess with
  | none => rfl
  | some sn =>
    unfold transfer
    by_cases h1 : amt ≤ 0
    · simp [h1]
    · cases hr : findByUsername s ru with
      | none => simp [h1, hr]
      | some receiver =>
        cases hs : findById s sn.user_id with
        | none => simp [h1, hr, hs]
        | some sender =>
          by_cases h2 : sender.balance < amt
          · simp [h1, hr, hs, h2]
          · simp [h1, hr, hs, h2]
            have hsm := findById_mem hs
            have hrm := findByUsername_mem hr
            have hsid : sn.user_id ∈ s.users.map Account.id := by
              rw [← hsm.2]
              exact List.mem_map_of_mem Account.id hsm.1
            have hrid : receiver.id ∈ s.users.map Account.id :=
              List.mem_map_of_mem Account.id hrm.1
            show totalBalance { s with
                users := updateBalance (updateBalance s.users sn.user_id (-amt))
                  receiver.id amt,
                transactions := _, nextTxId := _ } = totalBalance s
            unfold totalBalance
            rw [sum_updateBalance receiver.id amt _
                (by rw [updateBalance_map_id]; exact hnd)
                (by rw [updateBalance_map_id]; exact hrid),
              sum_updateBalance sn.user_id (-amt) s.users hnd hsid]
            ring

theorem conservation_aux : ∀ (ops : List Op) (s : LedgerState), goodState s →
    (∀ op ∈ ops, op.isTransfer = true) →
    totalBalance (List.foldl runOp s ops) = totalBalance s := by
  intro ops
  induction ops with
  | nil => intro s _ _; rfl
  | cons op t ih =>
    intro s hg hops
    rw [List.foldl_cons]
    have hop := hops op (List.mem_cons_self op t)
    cases op with
    | transferOp sess ru amt d =>
      rw [ih (runOp s (Op.transferOp sess ru amt d)) (goodState_runOp s _ hg)
          (fun o ho => hops o (List.mem_cons_of_mem _ ho))]
      exact totalBalance_transfer sess ru amt d s hg.2.1
    | registerOp u e p => simp [Op.isTransfer] at hop
    | adminOp sess uid amt => simp [Op.isTransfer] at hop

/-! ## Frame lemmas for the abort paths -/

theorem transfer_error_frame (sess : Option Session) (ru : String) (amt : ℚ)
    (d : String) (s : LedgerState) (e : LedgerError)
    (he : (transfer sess ru amt d s).2 = some e) :
    (transfer sess ru amt d s).1 = s := by
  cases sess with
  | none => rfl
  | some sn =>
    unfold transfer at he ⊢
    by_cases h1 : amt ≤ 0
    · simp [h1]
    · cases hr : findByUsername s ru with
      | none => simp [h1, hr]
      | some receiver =>
        cases hs : findById s sn.user_id with
        | none => simp [h1, hr, hs]
        | some sender =>
          by_cases h2 : sender.balance < amt
          · simp [h1, hr, hs, h2]
          · simp [h1, hr, hs, h2] at he

theorem admin_error_frame (sess : Option Session) (uid : Nat) (amt : ℚ)
    (s : LedgerState) (e : LedgerError)
    (he : (admin sess uid amt s).2 = some e) :
    (admin sess uid amt s).1 = s := by
  cases sess with
  | none => rfl
  | some sn =>
    unfold admin at he ⊢
    by_cases h1 : sn.username = "admin"
    · by_cases h2 : amt ≤ 0
      · simp [h1, h2]
      · simp [h1, h2] at he
    · simp [h1]

/-! ## Concrete states used by the witnesses and counterexamples -/

/-- The admin row `ensure_admin` inserts. -/
def adminA : Account :=
  { id := 1, username := "admin", email := some "admin@example.com",
    password := "admin123", balance := 0 }

/-- A user holding 100. -/
def aliceA : Account :=
  { id := 2, username := "alice", email := none, password := "pw", balance := 100 }

/-- A user holding 50. -/
def bobA : Account :=
  { id := 3, username := "bob", email := none, password := "pw", balance := 50 }

/-- A small populated database. -/
def sampleState : LedgerState :=
  { users := [adminA, aliceA, bobA], transactions := [], nextUserId := 4,
    nextTxId := 1 }

/-- A request sequence: one successful registration. -/
def witnessOps : List Op := [Op.registerOp "alice" none "pw"]

/-- The reachable state after serving `witnessOps` on the fresh database. -/
def witnessState : LedgerState := List.foldl runOp initState witnessOps

/-! ## The claims -/

/-- C1: for every reachable state (accounts created at registration, mutated
only by the transfer and admin-credit routes), every account balance is
non-negative: the transfer route debits the sender only after checking
`sender.balance >= amount`, the admin route only applies strictly positive
amounts, and accounts start at balance 0. -/
theorem C1_nonneg_invariant (s : LedgerState) (h : Reachable s)
    (a : Account) (ha : a ∈ s.users) : 0 ≤ a.balance :=
  (reachable_goodState h).1 a ha

theorem C1_nonneg_invariant_witness :
    0 ≤ (⟨2, "alice", none, "pw", 0⟩ : Account).balance :=
  C1_nonneg_invariant witnessState ⟨witnessOps, rfl⟩
    ⟨2, "alice", none, "pw", 0⟩ (by decide)

/-- C2: starting from any reachable state, a sequence of requests made up
only of transfers leaves the sum of all account balances unchanged: each
successful transfer debits the sender and credits the receiver by the same
amount and each failed transfer changes no balance. -/
theorem C2_conservation (s : LedgerState) (h : Reachable s) (ops : List Op)
    (hops : ∀ op ∈ ops, op.isTransfer = true) :
    totalBalance (List.foldl runOp s ops) = totalBalance s :=
  conservation_aux ops s (reachable_goodState h) hops

theorem C2_conservation_witness :
    totalBalance (List.foldl runOp witnessState
      [Op.transferOp (some ⟨2, "alice"⟩) "admin" 10 ""]) =
    totalBalance witnessState :=
  C2_conservation witnessState ⟨witnessOps, rfl⟩ _ (by decide)

/-- C3: every transfer or admin-credit invocation that aborts with any error
kind leaves the post-state — all account balances and the full transaction
log — identical to the pre-state; no partial mutation is observable. -/
theorem C3_atomicity (sess : Option Session) (ru : String) (uid : Nat)
    (amt amt2 : ℚ) (d : String) (s : LedgerState) :
    (∀ e, (transfer sess ru amt d s).2 = some e →
      (transfer sess ru amt d s).1 = s) ∧
    (∀ e, (admin sess uid amt2 s).2 = some e →
      (admin sess uid amt2 s).1 = s) :=
  ⟨fun e he => transfer_error_frame sess ru amt d s e he,
   fun e he => admin_error_frame sess uid amt2 s e he⟩

theorem C3_atomicity_witness :
    (transfer (some ⟨2, "alice"⟩) "ghost" 5 "" sampleState).1 = sampleState :=
  (C3_atomicity (some ⟨2, "alice"⟩) "ghost" 0 5 5 "" sampleState).1
    LedgerError.accountNotFound (by decide)

/-- C4 counterexample: the transfer route has no same-account check — a
self-transfer with sufficient funds succeeds and appends a record instead of
failing — and a missing sender row (with an existing receiver) raises an
uncaught `TypeError` instead of failing with `AccountNotFound`. -/
theorem C4_validation_counterexample :
    ((transfer (some ⟨2, "alice"⟩) "alice" 50 "self" sampleState).2 = none ∧
     (transfer (some ⟨2, "alice"⟩) "alice" 50 "self"
        sampleState).1.transactions.length
       = sampleState.transactions.length + 1) ∧
    (transfer (some ⟨99, "ghost"⟩) "bob" 5 "" sampleState).2
      = some LedgerError.typeError := by
  decide

/-- C4 (amended): for every logged-in transfer invocation, `amount <= 0`
fails with `InvalidAmount`; there is no same-account check (a self-transfer
is processed like any other); a missing receiver fails with
`AccountNotFound`; a missing sender row with an existing receiver raises an
uncaught `TypeError` rather than `AccountNotFound`; in each failing case the
state is unchanged. -/
theorem C4_validation_amended (sn : Session) (ru : String) (amt : ℚ)
    (d : String) (s : LedgerState) :
    (amt ≤ 0 →
      transfer (some sn) ru amt d s = (s, some LedgerError.invalidAmount)) ∧
    (¬ amt ≤ 0 → findByUsername s ru = none →
      transfer (some sn) ru amt d s = (s, some LedgerError.accountNotFound)) ∧
    (¬ amt ≤ 0 → (findByUsername s ru).isSome →
      findById s sn.user_id = none →
      transfer (some sn) ru amt d s = (s, some LedgerError.typeError)) := by
  refine ⟨?_, ?_, ?_⟩
  · intro h
    simp [transfer, h]
  · intro h1 h2
    simp [transfer, h1, h2]
  · intro h1 h2 h3
    cases hr : findByUsername s ru with
    | none => rw [hr] at h2; simp at h2
    | some receiver => simp [transfer, h1, hr, h3]

theorem C4_validation_amended_witness :
    transfer (some ⟨2, "alice"⟩) "bob" 0 "x" sampleState
      = (sampleState, some LedgerError.invalidAmount) ∧
    transfer (some ⟨2, "alice"⟩) "ghost" 5 "x" sampleState
      = (sampleState, some LedgerError.accountNotFound) ∧
    transfer (some ⟨99, "ghost"⟩) "bob" 5 "x" sampleState
      = (sampleState, some LedgerError.typeError) :=
  ⟨(C4_validation_amended ⟨2, "alice"⟩ "bob" 0 "x" sampleState).1 (by decide),
   (C4_validation_amended ⟨2, "alice"⟩ "ghost" 5 "x" sampleState).2.1
     (by decide) (by decide),
   (C4_validation_amended ⟨99, "ghost"⟩ "bob" 5 "x" sampleState).2.2
     (by decide) (by decide) (by decide)⟩

/-- C5: a transfer where both accounts exist, the amount is positive and the
sender balance is below the amount fails with `InsufficientFunds` and leaves
the state — balances and transaction log — unchanged. -/
theorem C5_insufficient_funds (sn : Session) (ru : String) (amt : ℚ)
    (d : String) (s : LedgerState) (receiver sender : Account)
    (hr : findByUsername s ru = some receiver)
    (hs : findById s sn.user_id = some sender)
    (hamt : 0 < amt) (hlt : sender.balance < amt) :
    transfer (some sn) ru amt d s = (s, some LedgerError.insufficientFunds) := by
  have h1 : ¬ amt ≤ 0 := not_le_of_lt hamt
  simp [transfer, h1, hr, hs, hlt]

theorem C5_insufficient_funds_witness :
    transfer (some ⟨2, "alice"⟩) "bob" 150 "" sampleState
      = (sampleState, some LedgerError.insufficientFunds) :=
  C5_insufficient_funds ⟨2, "alice"⟩ "bob" 150 "" sampleState bobA aliceA
    (by decide) (by decide) (by decide) (by decide)

/-- C6 counterexample: the admin-credit route takes no description input —
for the invocation crediting account 3 with 20, the single appended record
carries the hard-coded description `"Crédit admin"`, not a caller-supplied
description such as `"bonus"`. -/
theorem C6_admin_credit_counterexample :
    ((admin (some ⟨1, "admin"⟩) 3 20 sampleState).1.transactions.map
      TransactionRecord.description = ["Crédit admin"]) ∧
    ("Crédit admin" : String) ≠ "bonus" := by
  decide

/-- C6 (amended): an admin credit of a strictly positive amount to an
existing account succeeds, increases that account's balance by exactly the
amount, and appends exactly one transaction record with `sender_id` absent,
`receiver_id` the credited account and the hard-coded description
`"Crédit admin"` (the route accepts no description input). -/
theorem C6_admin_credit_amended (sn : Session) (uid : Nat) (amt : ℚ)
    (s : LedgerState) (acct : Account) (hadmin : sn.username = "admin")
    (hamt : 0 < amt) (hacct : acct ∈ s.users) (hid : acct.id = uid) :
    (admin (some sn) uid amt s).2 = none ∧
    { acct with balance := acct.balance + amt }
      ∈ (admin (some sn) uid amt s).1.users ∧
    (admin (some sn) uid amt s).1.transactions = s.transactions ++
      [{ id := s.nextTxId, sender_id := none, receiver_id := uid,
         amount := amt, description := "Crédit admin", date := s.nextTxId }] := by
  have h2 : ¬ amt ≤ 0 := not_le_of_lt hamt
  have hred : (admin (some sn) uid amt s).1.users = updateBalance s.users uid amt := by
    simp [admin, hadmin, h2]
  refine ⟨by simp [admin, hadmin, h2], ?_, by simp [admin, hadmin, h2]⟩
  rw [hred]
  unfold updateBalance
  rw [List.mem_map]
  exact ⟨acct, hacct, by simp [hid]⟩

theorem C6_admin_credit_amended_witness :
    (admin (some ⟨1, "admin"⟩) 3 20 sampleState).2 = none ∧
    { bobA with balance := bobA.balance + 20 }
      ∈ (admin (some ⟨1, "admin"⟩) 3 20 sampleState).1.users ∧
    (admin (some ⟨1, "admin"⟩) 3 20 sampleState).1.transactions =
      sampleState.transactions ++
      [{ id := 1, sender_id := none, receiver_id := 3, amount := 20,
         description := "Crédit admin", date := 1 }] :=
  C6_admin_credit_amended ⟨1, "admin"⟩ 3 20 sampleState bobA rfl
    (by decide) (by decide) rfl

/-- C7 counterexample: the history view for a session whose account id does
not exist does not fail with `AccountNotFound` — it renders successfully
with balance 0 and the (empty) query result. -/
theorem C7_gethistory_counterexample :
    dashboard (some ⟨99, "ghost"⟩) sampleState
      = Except.ok { user_balance := 0, transactions := [] } ∧
    (Except.ok { user_balance := 0, transactions := [] } :
      Except LedgerError DashboardView)
      ≠ Except.error LedgerError.accountNotFound :=
  ⟨rfl, by simp⟩

/-- C7 (amended): the history view never fails for a missing account: for
every logged-in session it returns the `listForAccount` query result
unchanged, showing the stored balance when the account exists and 0.0 when
it does not. -/
theorem C7_gethistory_amended (sn : Session) (s : LedgerState) :
    dashboard (some sn) s = Except.ok
      { user_balance := ((findById s sn.user_id).map Account.balance).getD 0,
        transactions := listForAccount s sn.user_id } ∧
    (findById s sn.user_id = none →
      dashboard (some sn) s = Except.ok
        { user_balance := 0, transactions := listForAccount s sn.user_id }) ∧
    (∀ a, findById s sn.user_id = some a →
      dashboard (some sn) s = Except.ok
        { user_balance := a.balance,
          transactions := listForAccount s sn.user_id }) := by
  refine ⟨rfl, ?_, ?_⟩
  · intro h
    simp [dashboard, h]
  · intro a h
    simp [dashboard, h]

theorem C7_gethistory_amended_witness :
    dashboard (some ⟨99, "ghost"⟩) sampleState = Except.ok
      { user_balance := 0, transactions := listForAccount sampleState 99 } :=
  (C7_gethistory_amended ⟨99, "ghost"⟩ sampleState).2.1 (by decide)

/-- C8: the per-account history query returns a finite list ordered newest
first by timestamp; a record is in it exactly when it is a stored
transaction involving the account, so each query reflects the latest
committed state, and a record committed by a successful transfer is visible
to the next query for its receiver. -/
theorem C8_history_ordering (s : LedgerState) (uid : Nat) :
    (listForAccount s uid).Sorted newestFirst ∧
    (∀ t, t ∈ listForAccount s uid ↔
      (t ∈ s.transactions ∧ (t.sender_id = some uid ∨ t.receiver_id = uid))) ∧
    (∀ sess ru amt d t2,
      (transfer sess ru amt d s).1.transactions = s.transactions ++ [t2] →
      t2.receiver_id = uid →
      t2 ∈ listForAccount (transfer sess ru amt d s).1 uid) := by
  have hmem : ∀ (s2 : LedgerState) (t : TransactionRecord),
      t ∈ listForAccount s2 uid ↔
      (t ∈ s2.transactions ∧ (t.sender_id = some uid ∨ t.receiver_id = uid)) := by
    intro s2 t
    unfold listForAccount
    rw [List.mem_insertionSort, List.mem_filter]
    simp
  refine ⟨List.sorted_insertionSort newestFirst _, fun t => hmem s t, ?_⟩
  intro sess ru amt d t2 happ hrid
  refine (hmem _ t2).mpr ⟨?_, Or.inr hrid⟩
  rw [happ]
  exact List.mem_append_right _ (List.mem_singleton_self t2)

theorem C8_history_ordering_witness :
    (⟨1, some 2, 3, 30, "pay", 1⟩ : TransactionRecord)
      ∈ listForAccount (transfer (some ⟨2, "alice"⟩) "bob" 30 "pay"
          sampleState).1 3 :=
  (C8_history_ordering sampleState 3).2.2 (some ⟨2, "alice"⟩) "bob" 30 "pay"
    ⟨1, some 2, 3, 30, "pay", 1⟩ (by decide) rfl

/-- C9: the notification hook runs only for a successful transfer or admin
credit (exactly one email is attempted after a commit, none after an abort),
and the hook's outcome — delivery success or failure — never changes the
committed state or the operation's result: both are identical across all
email environments and equal to those of the bare database operation. -/
theorem C9_notification_postcommit (env env2 : EmailEnv) (sess : Option Session)
    (ru : String) (amt amt2 : ℚ) (d : String) (uid : Nat) (s : LedgerState) :
    ((transferRoute env sess ru amt d s).1 = (transfer sess ru amt d s).1 ∧
     (transferRoute env sess ru amt d s).2.1 = (transfer sess ru amt d s).2 ∧
     ((transferRoute env sess ru amt d s).2.2.length
        = if (transfer sess ru amt d s).2 = none then 1 else 0) ∧
     (transferRoute env sess ru amt d s).1
        = (transferRoute env2 sess ru amt d s).1 ∧
     (transferRoute env sess ru amt d s).2.1
        = (transferRoute env2 sess ru amt d s).2.1) ∧
    ((adminRoute env sess uid amt2 s).1 = (admin sess uid amt2 s).1 ∧
     (adminRoute env sess uid amt2 s).2.1 = (admin sess uid amt2 s).2 ∧
     ((adminRoute env sess uid amt2 s).2.2.length
        = if (admin sess uid amt2 s).2 = none then 1 else 0) ∧
     (adminRoute env sess uid amt2 s).1
        = (adminRoute env2 sess uid amt2 s).1 ∧
     (adminRoute env sess uid amt2 s).2.1
        = (adminRoute env2 sess uid amt2 s).2.1) := by
  constructor
  · rcases htr : transfer sess ru amt d s with ⟨s2, r⟩
    cases r <;> simp [transferRoute, htr]
  · rcases had : admin sess uid amt2 s with ⟨s2, r⟩
    cases r <;> simp [adminRoute, had]

/-- C10: a request to the admin credit route with no session, or with a
session whose username is not `"admin"`, changes no account balance and
inserts no transaction record — the state is returned untouched; only a
session authenticated as the user named `"admin"` reaches the
credit-and-log mutation. -/
theorem C10_admin_authorization (uid : Nat) (amt : ℚ) (s : LedgerState) :
    (admin none uid amt s).1 = s ∧
    (∀ sn : Session, sn.username ≠ "admin" →
      (admin (some sn) uid amt s).1 = s) := by
  refine ⟨rfl, ?_⟩
  intro sn h
  simp [admin, h]

theorem C10_admin_authorization_witness :
    (admin (some ⟨3, "bob"⟩) 2 500 sampleState).1 = sampleState :=
  (C10_admin_authorization 2 500 sampleState).2 ⟨3, "bob"⟩ (by decide)

end Nexus
